import Mathlib

set_option maxHeartbeats 2000000
set_option maxRecDepth 8000

/-!
Shallow embedding of the bustowork commute heat-map pipeline.

The embedding follows `src/analyzer.py` (`TimeDistributionAnalyzer`),
`src/grid_generator.py` (`GridHeatMapGenerator`) and
`src/grid_generator_parallel.py` (`ParallelGridHeatMapGenerator`).

Modelling decisions, in one place:
* Python floats become `ℚ` (all arithmetic in the analyzed code is exact on
  the inputs the claims quantify over; no rounding behaviour is claimed).
* Geographic and planar coordinates are pairs of rationals.  The geopandas
  CRS transforms (`_init_projections`, `_grid_to_latlon`) are third-party
  library calls, so they are abstracted as function parameters `toPlane` /
  `toGeo`; the spec (§4.1) makes them mutual near-inverses, hence injective.
* Departure timestamps become absolute minute indices (`ℤ`); the analyzer
  samples one query per minute from the start minute to the end minute
  inclusive (`while current_time <= end_time` in `analyze_location`).
* The r5py travel-time oracle (`R5Router.calculate_route_at_time`) is an
  opaque function `GeoPoint → GeoPoint → ℤ → Option ℚ` (`none` = no route).
  A second, `Except`-valued oracle type models a raising oracle, because
  neither `_analyze_point_worker` nor the generator loops contain any
  exception handler: a raised exception propagates to the caller.
* `np.percentile` is the linear-interpolation percentile on the sorted data;
  `np.median` coincides with the 50th percentile under that method.
  `np.std` is the only irrational statistic; it is computed by the source
  but never read by any code under verification (the grid generators copy
  only `min`/`median`/`max`/`mean` into point results), so `SummaryStats`
  carries exactly the four fields the generators read.
* `datetime.now()` (`generation_time`) and file I/O (`save_path`) are
  omitted: no claim mentions them.
-/

/-- A (lat, lon) pair in degrees, or a planar (x, y) pair in feet. -/
abbrev GeoPoint : Type := ℚ × ℚ

/-- The integer list `[a, a+1, ..., b-1]`, i.e. Python `range(a, b)`. -/
def intRange (a b : ℤ) : List ℤ :=
  (List.range (b - a).toNat).map (fun (k : ℕ) => a + (k : ℤ))

/-- Python `min` over a non-empty list (`0` as junk value on `[]`,
which the source never evaluates). -/
def listMin : List ℚ → ℚ
  | [] => 0
  | x :: xs => xs.foldl min x

/-- Python `max` over a non-empty list (`0` as junk value on `[]`). -/
def listMax : List ℚ → ℚ
  | [] => 0
  | x :: xs => xs.foldl max x

/-- Linear interpolation into a (sorted) sample list at fractional
position `pos`: `s[k] + (pos - k) * (s[k+1] - s[k])` with `k = ⌊pos⌋`,
clamping to the last element when `k+1` is out of range.  This is the
indexing step of `np.percentile` (default linear-interpolation method). -/
def interpAt (s : List ℚ) (pos : ℚ) : ℚ :=
  if (Int.floor pos).toNat + 1 < s.length then
    s.getD (Int.floor pos).toNat 0 +
      (pos - ((Int.floor pos).toNat : ℚ)) *
        (s.getD ((Int.floor pos).toNat + 1) 0 - s.getD (Int.floor pos).toNat 0)
  else s.getD (Int.floor pos).toNat 0

/-- `np.percentile(xs, q)` with the default linear-interpolation method:
sort the data and interpolate at position `q / 100 * (n - 1)`. -/
def percentile (xs : List ℚ) (q : ℚ) : ℚ :=
  interpAt (List.insertionSort (· ≤ ·) xs)
    (q / 100 * (((List.insertionSort (· ≤ ·) xs).length : ℚ) - 1))

/-- The percentile dictionary built by `analyze_location`
(`src/analyzer.py` lines 154-162). -/
structure Percentiles where
  p10 : ℚ
  p25 : ℚ
  p50 : ℚ
  p75 : ℚ
  p80 : ℚ
  p90 : ℚ
  p95 : ℚ

/-- The summary-statistics dictionary built by `analyze_location`
(`src/analyzer.py` lines 165-171), restricted to the four fields read by
the grid generators (`np.std` is computed but never read; see header). -/
structure SummaryStats where
  mean : ℚ
  median : ℚ
  min : ℚ
  max : ℚ

/-- The state stored by `TimeDistributionAnalyzer.__init__`: work location
and the sampling window, with times as absolute minute indices on the
analysis date. -/
structure AnalyzerConfig where
  work_lat : ℚ
  work_lon : ℚ
  start_minutes : ℤ
  end_minutes : ℤ

/-- The travel-time oracle `R5Router.calculate_route_at_time`:
origin, destination, departure minute ↦ travel time in minutes, or
`none` when no route is found. -/
abbrev Oracle : Type := GeoPoint → GeoPoint → ℤ → Option ℚ

/-- The result dictionary of `TimeDistributionAnalyzer.analyze_location`.
The empty dicts `'percentiles': {}` / `'statistics': {}` of the
no-reachable-sample branch are modelled as `none`.
The field `reachable_fraction` models the key `'reachable_ratio'`. -/
structure AnalysisResult where
  times : List ℚ
  to_work_times : List ℚ
  from_work_times : List ℚ
  percentiles : Option Percentiles
  statistics : Option SummaryStats
  unreachable_count : ℕ
  total_samples : ℕ
  reachable_fraction : ℚ

/-- `TimeDistributionAnalyzer.analyze_location` (`src/analyzer.py` lines
64-182): sample both directions at every minute of the inclusive window,
pool the reachable samples, and either return the unscored record (empty
pool) or attach percentiles and statistics of the pooled samples.
The Python locals (`timestamps`, `to_work_times`, ...) are inlined. -/
def analyze_location (oracle : Oracle) (a : AnalyzerConfig) (home : GeoPoint) :
    AnalysisResult :=
  if (intRange a.start_minutes (a.end_minutes + 1)).filterMap
        (fun t => oracle home (a.work_lat, a.work_lon) t) ++
      (intRange a.start_minutes (a.end_minutes + 1)).filterMap
        (fun t => oracle (a.work_lat, a.work_lon) home t) = [] then
    { times := [], to_work_times := [], from_work_times := [],
      percentiles := none, statistics := none,
      unreachable_count :=
        (intRange a.start_minutes (a.end_minutes + 1)).countP
            (fun t => (oracle home (a.work_lat, a.work_lon) t).isNone) +
          (intRange a.start_minutes (a.end_minutes + 1)).countP
            (fun t => (oracle (a.work_lat, a.work_lon) home t).isNone),
      total_samples := (intRange a.start_minutes (a.end_minutes + 1)).length * 2,
      reachable_fraction := 0 }
  else
    { times :=
        (intRange a.start_minutes (a.end_minutes + 1)).filterMap
            (fun t => oracle home (a.work_lat, a.work_lon) t) ++
          (intRange a.start_minutes (a.end_minutes + 1)).filterMap
            (fun t => oracle (a.work_lat, a.work_lon) home t),
      to_work_times :=
        (intRange a.start_minutes (a.end_minutes + 1)).filterMap
          (fun t => oracle home (a.work_lat, a.work_lon) t),
      from_work_times :=
        (intRange a.start_minutes (a.end_minutes + 1)).filterMap
          (fun t => oracle (a.work_lat, a.work_lon) home t),
      percentiles := some
        { p10 := percentile ((intRange a.start_minutes (a.end_minutes + 1)).filterMap
              (fun t => oracle home (a.work_lat, a.work_lon) t) ++
            (intRange a.start_minutes (a.end_minutes + 1)).filterMap
              (fun t => oracle (a.work_lat, a.work_lon) home t)) 10,
          p25 := percentile ((intRange a.start_minutes (a.end_minutes + 1)).filterMap
              (fun t => oracle home (a.work_lat, a.work_lon) t) ++
            (intRange a.start_minutes (a.end_minutes + 1)).filterMap
              (fun t => oracle (a.work_lat, a.work_lon) home t)) 25,
          p50 := percentile ((intRange a.start_minutes (a.end_minutes + 1)).filterMap
              (fun t => oracle home (a.work_lat, a.work_lon) t) ++
            (intRange a.start_minutes (a.end_minutes + 1)).filterMap
              (fun t => oracle (a.work_lat, a.work_lon) home t)) 50,
          p75 := percentile ((intRange a.start_minutes (a.end_minutes + 1)).filterMap
              (fun t => oracle home (a.work_lat, a.work_lon) t) ++
            (intRange a.start_minutes (a.end_minutes + 1)).filterMap
              (fun t => oracle (a.work_lat, a.work_lon) home t)) 75,
          p80 := percentile ((intRange a.start_minutes (a.end_minutes + 1)).filterMap
              (fun t => oracle home (a.work_lat, a.work_lon) t) ++
            (intRange a.start_minutes (a.end_minutes + 1)).filterMap
              (fun t => oracle (a.work_lat, a.work_lon) home t)) 80,
          p90 := percentile ((intRange a.start_minutes (a.end_minutes + 1)).filterMap
              (fun t => oracle home (a.work_lat, a.work_lon) t) ++
            (intRange a.start_minutes (a.end_minutes + 1)).filterMap
              (fun t => oracle (a.work_lat, a.work_lon) home t)) 90,
          p95 := percentile ((intRange a.start_minutes (a.end_minutes + 1)).filterMap
              (fun t => oracle home (a.work_lat, a.work_lon) t) ++
            (intRange a.start_minutes (a.end_minutes + 1)).filterMap
              (fun t => oracle (a.work_lat, a.work_lon) home t)) 95 },
      statistics := some
        { mean := ((intRange a.start_minutes (a.end_minutes + 1)).filterMap
                (fun t => oracle home (a.work_lat, a.work_lon) t) ++
              (intRange a.start_minutes (a.end_minutes + 1)).filterMap
                (fun t => oracle (a.work_lat, a.work_lon) home t)).sum /
            ((((intRange a.start_minutes (a.end_minutes + 1)).filterMap
                (fun t => oracle home (a.work_lat, a.work_lon) t) ++
              (intRange a.start_minutes (a.end_minutes + 1)).filterMap
                (fun t => oracle (a.work_lat, a.work_lon) home t)).length : ℚ)),
          median := percentile ((intRange a.start_minutes (a.end_minutes + 1)).filterMap
              (fun t => oracle home (a.work_lat, a.work_lon) t) ++
            (intRange a.start_minutes (a.end_minutes + 1)).filterMap
              (fun t => oracle (a.work_lat, a.work_lon) home t)) 50,
          min := listMin ((intRange a.start_minutes (a.end_minutes + 1)).filterMap
              (fun t => oracle home (a.work_lat, a.work_lon) t) ++
            (intRange a.start_minutes (a.end_minutes + 1)).filterMap
              (fun t => oracle (a.work_lat, a.work_lon) home t)),
          max := listMax ((intRange a.start_minutes (a.end_minutes + 1)).filterMap
              (fun t => oracle home (a.work_lat, a.work_lon) t) ++
            (intRange a.start_minutes (a.end_minutes + 1)).filterMap
              (fun t => oracle (a.work_lat, a.work_lon) home t)) },
      unreachable_count :=
        (intRange a.start_minutes (a.end_minutes + 1)).countP
            (fun t => (oracle home (a.work_lat, a.work_lon) t).isNone) +
          (intRange a.start_minutes (a.end_minutes + 1)).countP
            (fun t => (oracle (a.work_lat, a.work_lon) home t).isNone),
      total_samples := (intRange a.start_minutes (a.end_minutes + 1)).length * 2,
      reachable_fraction :=
        ((((intRange a.start_minutes (a.end_minutes + 1)).filterMap
              (fun t => oracle home (a.work_lat, a.work_lon) t) ++
            (intRange a.start_minutes (a.end_minutes + 1)).filterMap
              (fun t => oracle (a.work_lat, a.work_lon) home t)).length : ℚ)) /
          (((intRange a.start_minutes (a.end_minutes + 1)).length : ℚ) * 2) }

/-- `TimeDistributionAnalyzer.get_score` (`src/analyzer.py` lines 184-197):
`None` when no reachable sample exists, else the 80th-percentile entry of
the percentile dict.  (The source indexes `['percentiles']['80th']`
unconditionally in the non-empty branch; on `analyze_location` outputs the
dict is always populated there, which `get_score_spec` verifies.) -/
def get_score (analysis_result : AnalysisResult) : Option ℚ :=
  if analysis_result.times = [] then none
  else analysis_result.percentiles.map Percentiles.p80

/-- The sequence of oracle queries issued by `analyze_location`, in program
order: for each minute `t` of the window, first `(home → work, t)`, then
`(work → home, t)` (`src/analyzer.py` lines 113-136).  Each entry is
(origin, destination, departure minute). -/
def query_log (a : AnalyzerConfig) (home : GeoPoint) :
    List (GeoPoint × GeoPoint × ℤ) :=
  (intRange a.start_minutes (a.end_minutes + 1)).flatMap (fun t =>
    [(home, ((a.work_lat, a.work_lon) : GeoPoint), t),
     (((a.work_lat, a.work_lon) : GeoPoint), home, t)])

/-- The state stored by `GridHeatMapGenerator.__init__`
(`src/grid_generator.py` lines 27-52) and equally by
`ParallelGridHeatMapGenerator.__init__` (`src/grid_generator_parallel.py`
lines 97-125): the constructor arguments plus the projected work location.
Neither constructor body contains any validation or raise statement. -/
structure GridConfig where
  work_lat : ℚ
  work_lon : ℚ
  grid_spacing_feet : ℚ
  max_score_threshold : ℚ
  work_x : ℚ
  work_y : ℚ

/-- `GridHeatMapGenerator.__init__` / `ParallelGridHeatMapGenerator.__init__`:
store the arguments and project the work location via the external CRS
transform `toPlane` (`_init_projections`).  The body performs no input
validation whatsoever, so the model is a total function. -/
def grid_init (toPlane : GeoPoint → ℚ × ℚ) (work_lat work_lon : ℚ)
    (grid_spacing_feet max_score_threshold : ℚ) : GridConfig :=
  { work_lat := work_lat, work_lon := work_lon,
    grid_spacing_feet := grid_spacing_feet,
    max_score_threshold := max_score_threshold,
    work_x := (toPlane (work_lat, work_lon)).1,
    work_y := (toPlane (work_lat, work_lon)).2 }

/-- `GridHeatMapGenerator.generate_ring_points`
(`src/grid_generator.py` lines 87-119; the parallel variant lines 160-190
is textually identical up to an unused local): ring 0 is the work location
itself; ring `r ≥ 1` walks `i` then `j` over `range(-r, r+1)`, keeps the
perimeter offsets (`abs(i) == r or abs(j) == r`), and maps each planar
point `(work_x + i*spacing, work_y + j*spacing)` through the external CRS
transform `toGeo` (`_grid_to_latlon`). -/
def generate_ring_points (toGeo : ℚ × ℚ → GeoPoint) (g : GridConfig)
    (ring_number : ℕ) : List GeoPoint :=
  if ring_number = 0 then [(g.work_lat, g.work_lon)]
  else
    (intRange (-(ring_number : ℤ)) ((ring_number : ℤ) + 1)).flatMap (fun (i : ℤ) =>
      (intRange (-(ring_number : ℤ)) ((ring_number : ℤ) + 1)).filterMap (fun (j : ℤ) =>
        if i.natAbs = ring_number ∨ j.natAbs = ring_number then
          some (toGeo (g.work_x + (i : ℚ) * g.grid_spacing_feet,
                       g.work_y + (j : ℚ) * g.grid_spacing_feet))
        else none))

/-- The perimeter offsets `(i, j)` enumerated by `generate_ring_points`
for `r ≥ 1`, in source order. -/
def ringOffsets (r : ℕ) : List (ℤ × ℤ) :=
  (intRange (-(r : ℤ)) ((r : ℤ) + 1)).flatMap (fun (i : ℤ) =>
    (intRange (-(r : ℤ)) ((r : ℤ) + 1)).filterMap (fun (j : ℤ) =>
      if i.natAbs = r ∨ j.natAbs = r then some (i, j) else none))

/-- A reason recorded in `results['stopped_reason']`.  The source stores
f-strings; the constructors carry the same interpolated data:
`.ring_exceeds_threshold r` models `f'All points in ring {r} exceed threshold'`
and `.reached_max_rings m` models `f'Reached maximum rings ({m})'`. -/
inductive StopReason where
  | ring_exceeds_threshold (ring : ℕ)
  | reached_max_rings (max_rings : ℕ)
deriving DecidableEq

/-- One entry of `results['points']` (`src/grid_generator.py` lines
182-194, `src/grid_generator_parallel.py` lines 79-91): the point, its
score, the ring index, the reachable ratio and the copied statistics
summary.  The field `reachable_fraction` models the key `'reachable_ratio'`. -/
structure PointResult where
  point : GeoPoint
  score : Option ℚ
  ring : ℕ
  reachable_fraction : ℚ
  statistics : Option SummaryStats

/-- The `results` dictionary of `generate_heatmap`, without
`generation_time` (wall clock) and `num_workers` (worker count echo). -/
structure HeatMapResult where
  work_lat : ℚ
  work_lon : ℚ
  grid_spacing_feet : ℚ
  max_score_threshold : ℚ
  points : List PointResult
  rings_analyzed : ℕ
  total_points : ℕ
  stopped_reason : Option StopReason

/-- Evaluation of a single grid point inside the ring loop
(`src/grid_generator.py` lines 177-197) and equally inside
`_analyze_point_worker` (`src/grid_generator_parallel.py` lines 53-91):
run `analyze_location`, take `get_score`, copy ratio and statistics. -/
def analyze_point (oracle : Oracle) (a : AnalyzerConfig) (ring : ℕ)
    (p : GeoPoint) : PointResult :=
  { point := p,
    score := get_score (analyze_location oracle a p),
    ring := ring,
    reachable_fraction := (analyze_location oracle a p).reachable_fraction,
    statistics := (analyze_location oracle a p).statistics }

/-- The ring loop of `generate_heatmap` (`src/grid_generator.py` lines
166-228; `src/grid_generator_parallel.py` lines 250-300 is the same loop
with the evaluation farmed out to the pool).  One call handles the body
for ring index `ring` with `fuel` loop iterations remaining
(`fuel = max_rings + 1 - ring` at every call site): evaluate the ring,
append its results, update counters, then 1. stop with the threshold
reason when the ring has scores and the minimum exceeds the threshold,
2. otherwise stop with the max-rings reason when `ring = max_rings`,
3. otherwise continue with the next ring. -/
def heatLoop (ringPts : ℕ → List GeoPoint) (evalPt : ℕ → GeoPoint → PointResult)
    (threshold : ℚ) (max_rings : ℕ) : ℕ → ℕ → HeatMapResult → HeatMapResult
  | _, 0, acc => acc
  | ring, fuel + 1, acc =>
    let ring_results := (ringPts ring).map (evalPt ring)
    let acc1 : HeatMapResult :=
      { acc with points := acc.points ++ ring_results,
                 rings_analyzed := ring + 1,
                 total_points := (acc.points ++ ring_results).length }
    let ring_scores := ring_results.filterMap PointResult.score
    if ring_scores ≠ [] ∧ threshold < listMin ring_scores then
      { acc1 with stopped_reason := some (StopReason.ring_exceeds_threshold ring) }
    else if ring = max_rings then
      { acc1 with stopped_reason := some (StopReason.reached_max_rings max_rings) }
    else heatLoop ringPts evalPt threshold max_rings (ring + 1) fuel acc1

/-- `GridHeatMapGenerator.generate_heatmap` (`src/grid_generator.py`
lines 121-238): initialize the result record and run the ring loop
`for ring in range(max_rings + 1)` from ring 0. -/
def generate_heatmap (toGeo : ℚ × ℚ → GeoPoint) (g : GridConfig)
    (oracle : Oracle) (a : AnalyzerConfig) (max_rings : ℕ) : HeatMapResult :=
  heatLoop (generate_ring_points toGeo g) (analyze_point oracle a)
    g.max_score_threshold max_rings 0 (max_rings + 1)
    { work_lat := g.work_lat, work_lon := g.work_lon,
      grid_spacing_feet := g.grid_spacing_feet,
      max_score_threshold := g.max_score_threshold,
      points := [], rings_analyzed := 0, total_points := 0,
      stopped_reason := none }

/-- A travel-time oracle that may raise: `.error` models an exception
escaping `R5Router.calculate_route_at_time`, `.ok none` an ordinary
"no route found". -/
abbrev OracleE : Type := GeoPoint → GeoPoint → ℤ → Except String (Option ℚ)

/-- The sampling loop of `analyze_location` under a raising oracle
(`src/analyzer.py` lines 113-136).  The loop body contains no exception
handler, so the first raised exception propagates; otherwise it
accumulates (to-work times, from-work times, unreachable count) in
program order. -/
def sample_loop (oracle : OracleE) (work home : GeoPoint) :
    List ℤ → Except String (List ℚ × List ℚ × ℕ)
  | [] => Except.ok ([], [], 0)
  | t :: ts =>
    match oracle home work t with
    | Except.error e => Except.error e
    | Except.ok tw =>
      match oracle work home t with
      | Except.error e => Except.error e
      | Except.ok fw =>
        match sample_loop oracle work home ts with
        | Except.error e => Except.error e
        | Except.ok (tws, fws, u) =>
          Except.ok (tw.toList ++ tws, fw.toList ++ fws,
            ((if tw.isNone then 1 else 0) + (if fw.isNone then 1 else 0)) + u)

/-- `analyze_location` under a raising oracle: run the sampling loop, then
assemble the same result record as the pure model; an exception anywhere
in the window propagates to the caller (the source has no try/except on
this path). -/
def analyze_locationE (oracle : OracleE) (a : AnalyzerConfig) (home : GeoPoint) :
    Except String AnalysisResult :=
  match sample_loop oracle (a.work_lat, a.work_lon) home
      (intRange a.start_minutes (a.end_minutes + 1)) with
  | Except.error e => Except.error e
  | Except.ok (to_work_times, from_work_times, unreachable_count) =>
    let total_samples : ℕ := (intRange a.start_minutes (a.end_minutes + 1)).length
    let all_times : List ℚ := to_work_times ++ from_work_times
    if all_times = [] then
      Except.ok
        { times := [], to_work_times := [], from_work_times := [],
          percentiles := none, statistics := none,
          unreachable_count := unreachable_count,
          total_samples := total_samples * 2,
          reachable_fraction := 0 }
    else
      Except.ok
        { times := all_times,
          to_work_times := to_work_times,
          from_work_times := from_work_times,
          percentiles := some
            { p10 := percentile all_times 10, p25 := percentile all_times 25,
              p50 := percentile all_times 50, p75 := percentile all_times 75,
              p80 := percentile all_times 80, p90 := percentile all_times 90,
              p95 := percentile all_times 95 },
          statistics := some
            { mean := all_times.sum / (all_times.length : ℚ),
              median := percentile all_times 50,
              min := listMin all_times, max := listMax all_times },
          unreachable_count := unreachable_count,
          total_samples := total_samples * 2,
          reachable_fraction := (all_times.length : ℚ) / ((total_samples : ℚ) * 2) }

/-- `_analyze_point_worker` under a raising oracle
(`src/grid_generator_parallel.py` lines 53-91): no try/except, so an
exception from the analyzer propagates out of the worker (and
`Pool.map` / `imap_unordered` re-raise it in the parent). -/
def analyze_pointE (oracle : OracleE) (a : AnalyzerConfig) (ring : ℕ)
    (p : GeoPoint) : Except String PointResult :=
  match analyze_locationE oracle a p with
  | Except.error e => Except.error e
  | Except.ok analysis =>
    Except.ok
      { point := p, score := get_score analysis, ring := ring,
        reachable_fraction := analysis.reachable_fraction,
        statistics := analysis.statistics }

/-- Evaluation of a ring's points under a raising oracle: the first
failing job aborts the whole batch, as `pool.map` re-raises a worker
exception in the parent (and the sequential loop just raises in place). -/
def mapE (f : GeoPoint → Except String PointResult) :
    List GeoPoint → Except String (List PointResult)
  | [] => Except.ok []
  | p :: ps =>
    match f p with
    | Except.error e => Except.error e
    | Except.ok r =>
      match mapE f ps with
      | Except.error e => Except.error e
      | Except.ok rs => Except.ok (r :: rs)

/-- The ring loop of `generate_heatmap` under a raising oracle: identical
control flow to `heatLoop`, except that a raised exception anywhere in a
ring's evaluation aborts the run with no artifact. -/
def heatLoopE (ringPts : ℕ → List GeoPoint)
    (evalPt : ℕ → GeoPoint → Except String PointResult)
    (threshold : ℚ) (max_rings : ℕ) :
    ℕ → ℕ → HeatMapResult → Except String HeatMapResult
  | _, 0, acc => Except.ok acc
  | ring, fuel + 1, acc =>
    match mapE (evalPt ring) (ringPts ring) with
    | Except.error e => Except.error e
    | Except.ok ring_results =>
      let acc1 : HeatMapResult :=
        { acc with points := acc.points ++ ring_results,
                   rings_analyzed := ring + 1,
                   total_points := (acc.points ++ ring_results).length }
      let ring_scores := ring_results.filterMap PointResult.score
      if ring_scores ≠ [] ∧ threshold < listMin ring_scores then
        Except.ok { acc1 with stopped_reason := some (StopReason.ring_exceeds_threshold ring) }
      else if ring = max_rings then
        Except.ok { acc1 with stopped_reason := some (StopReason.reached_max_rings max_rings) }
      else heatLoopE ringPts evalPt threshold max_rings (ring + 1) fuel acc1

/-- `generate_heatmap` under a raising oracle (covers both the sequential
generator and the parallel one, whose pool re-raises worker exceptions). -/
def generate_heatmapE (toGeo : ℚ × ℚ → GeoPoint) (g : GridConfig)
    (oracle : OracleE) (a : AnalyzerConfig) (max_rings : ℕ) :
    Except String HeatMapResult :=
  heatLoopE (generate_ring_points toGeo g) (analyze_pointE oracle a)
    g.max_score_threshold max_rings 0 (max_rings + 1)
    { work_lat := g.work_lat, work_lon := g.work_lon,
      grid_spacing_feet := g.grid_spacing_feet,
      max_score_threshold := g.max_score_threshold,
      points := [], rings_analyzed := 0, total_points := 0,
      stopped_reason := none }

lemma mem_intRange {a b x : ℤ} : x ∈ intRange a b ↔ a ≤ x ∧ x < b := by
  unfold intRange
  simp only [List.mem_map, List.mem_range]
  constructor
  · rintro ⟨k, hk, rfl⟩
    omega
  · intro h
    exact ⟨(x - a).toNat, by omega, by omega⟩

lemma intRange_nodup (a b : ℤ) : (intRange a b).Nodup := by
  unfold intRange
  refine List.Nodup.map ?_ (List.nodup_range _)
  intro x y h
  simpa using h

lemma intRange_length (a b : ℤ) : (intRange a b).length = (b - a).toNat := by
  unfold intRange
  simp

lemma intRange_eq_nil {a b : ℤ} (h : b ≤ a) : intRange a b = [] := by
  have h0 : (b - a).toNat = 0 := by omega
  unfold intRange
  simp [h0]

lemma length_filterMap_add_countP_none {α β : Type} (f : α → Option β) (l : List α) :
    (l.filterMap f).length + l.countP (fun x => (f x).isNone) = l.length := by
  induction l with
  | nil => simp
  | cons x xs ih =>
    cases h : f x <;>
      simp [List.filterMap_cons, h, List.countP_cons, ih] <;> omega

lemma analyze_total_samples (oracle : Oracle) (a : AnalyzerConfig) (home : GeoPoint) :
    (analyze_location oracle a home).total_samples =
      (intRange a.start_minutes (a.end_minutes + 1)).length * 2 := by
  unfold analyze_location
  split <;> rfl

lemma analyze_ratio_eq (oracle : Oracle) (a : AnalyzerConfig) (home : GeoPoint) :
    (analyze_location oracle a home).reachable_fraction =
      ((analyze_location oracle a home).times.length : ℚ) /
        (((intRange a.start_minutes (a.end_minutes + 1)).length : ℚ) * 2) := by
  unfold analyze_location
  split
  · simp
  · rfl

/-- Claim C10: an inverted window (start strictly after end) yields the
unscored record — empty sample lists, absent percentiles and statistics,
`total_samples = 0`, `reachable_ratio = 0.0` — rather than an error: the
empty-pool early return is taken, and the `reachable_ratio` division by
`2 * total_samples` is never evaluated with `total_samples = 0`. -/
theorem empty_window_unscored (oracle : Oracle) (a : AnalyzerConfig)
    (home : GeoPoint) (h : a.end_minutes < a.start_minutes) :
    analyze_location oracle a home =
      { times := [], to_work_times := [], from_work_times := [],
        percentiles := none, statistics := none,
        unreachable_count := 0, total_samples := 0, reachable_fraction := 0 } := by
  have hnil : intRange a.start_minutes (a.end_minutes + 1) = [] :=
    intRange_eq_nil (by omega)
  unfold analyze_location
  rw [hnil]
  simp

/-- Stub analyzer configuration with an inverted window (start minute 10,
end minute 5), for the C10 witness. -/
def acfgInverted : AnalyzerConfig :=
  { work_lat := 0, work_lon := 0, start_minutes := 10, end_minutes := 5 }

/-- Stub oracle: every query answers a 10-minute travel time. -/
def oracleTen : Oracle := fun _ _ _ => some 10

/-- Witness for C10 at a concrete inverted window. -/
theorem empty_window_unscored_witness :
    acfgInverted.end_minutes < acfgInverted.start_minutes ∧
    analyze_location oracleTen acfgInverted ((0 : ℚ), (0 : ℚ)) =
      { times := [], to_work_times := [], from_work_times := [],
        percentiles := none, statistics := none,
        unreachable_count := 0, total_samples := 0, reachable_fraction := 0 } :=
  ⟨by norm_num [acfgInverted],
   empty_window_unscored oracleTen acfgInverted ((0 : ℚ), (0 : ℚ))
     (by norm_num [acfgInverted])⟩

/-- Claim C3: `get_score` is a pure function of the analysis record; on
every `analyze_location` output it returns the 80th percentile of the
pooled reachable samples when at least one sample is reachable and `none`
when the reachable count is zero (never an error), and the pooled
reachable count plus the unreachable count accounts for every issued
sample (so "zero reachable samples" and "empty pool" coincide). -/
theorem get_score_spec (oracle : Oracle) (a : AnalyzerConfig) (home : GeoPoint) :
    get_score (analyze_location oracle a home) =
      (if (analyze_location oracle a home).times = [] then none
       else some (percentile (analyze_location oracle a home).times 80)) ∧
    (analyze_location oracle a home).times.length +
        (analyze_location oracle a home).unreachable_count =
      (analyze_location oracle a home).total_samples := by
  constructor
  · unfold analyze_location get_score
    split
    · simp
    · next h =>
      simp only [h, if_false]
      simp [h]
  · have c1 := length_filterMap_add_countP_none
      (fun t => oracle home (a.work_lat, a.work_lon) t)
      (intRange a.start_minutes (a.end_minutes + 1))
    have c2 := length_filterMap_add_countP_none
      (fun t => oracle (a.work_lat, a.work_lon) home t)
      (intRange a.start_minutes (a.end_minutes + 1))
    unfold analyze_location
    split
    · next h =>
      rcases List.append_eq_nil.mp h with ⟨h1, h2⟩
      rw [h1] at c1
      rw [h2] at c2
      simp only [List.length_nil] at c1 c2 ⊢
      omega
    · next h =>
      simp only [List.length_append]
      omega

lemma pairlog_filter_nil (home wk : GeoPoint) (ts : List ℤ) (t : ℤ)
    (hmem : t ∉ ts) :
    (ts.flatMap (fun u => [(home, wk, u), (wk, home, u)])).filter
      (fun e => decide (e.2.2 = t)) = [] := by
  induction ts with
  | nil => rfl
  | cons u us ih =>
    have hne : u ≠ t := by
      intro h
      exact hmem (h ▸ List.mem_cons_self u us)
    have hus : t ∉ us := fun h => hmem (List.mem_cons_of_mem _ h)
    simp only [List.flatMap_cons, List.filter_append, ih hus, List.append_nil]
    simp [hne]

lemma pairlog_filter (home wk : GeoPoint) (ts : List ℤ) (t : ℤ)
    (hnd : ts.Nodup) (hmem : t ∈ ts) :
    (ts.flatMap (fun u => [(home, wk, u), (wk, home, u)])).filter
      (fun e => decide (e.2.2 = t)) = [(home, wk, t), (wk, home, t)] := by
  induction ts with
  | nil => cases hmem
  | cons u us ih =>
    rcases List.mem_cons.mp hmem with h | h
    · subst h
      have hus : t ∉ us := (List.nodup_cons.mp hnd).1
      simp only [List.flatMap_cons, List.filter_append,
        pairlog_filter_nil home wk us t hus, List.append_nil]
      simp
    · have hne : u ≠ t := by
        intro he
        exact (List.nodup_cons.mp hnd).1 (he ▸ h)
      simp only [List.flatMap_cons, List.filter_append,
        ih (List.nodup_cons.mp hnd).2 h]
      simp [hne]

lemma pairlog_length (home wk : GeoPoint) (ts : List ℤ) :
    (ts.flatMap (fun u => [(home, wk, u), (wk, home, u)])).length = 2 * ts.length := by
  induction ts with
  | nil => rfl
  | cons u us ih =>
    simp only [List.flatMap_cons, List.length_append, ih, List.length_cons]
    simp
    omega

/-- Claim C7: for every minute `t` in the inclusive window the analyzer
issues exactly the two oracle queries `(home → work, t)` and
`(work → home, t)` (the query log filtered to departure `t` is exactly
that pair), the log holds `2 * windowMinutes` queries with
`windowMinutes = (end - start) + 1`, the reported `total_samples` equals
`2 * windowMinutes`, and the reported reachable ratio equals
`reachableCount / (2 * windowMinutes)` with `reachableCount` the number
of queries that returned a travel time. -/
theorem sampling_two_queries_per_minute (oracle : Oracle) (a : AnalyzerConfig)
    (home : GeoPoint) (t : ℤ)
    (hw : a.start_minutes ≤ a.end_minutes)
    (ht1 : a.start_minutes ≤ t) (ht2 : t ≤ a.end_minutes) :
    (query_log a home).filter (fun e => decide (e.2.2 = t)) =
      [(home, (a.work_lat, a.work_lon), t), ((a.work_lat, a.work_lon), home, t)] ∧
    (query_log a home).length =
      2 * ((a.end_minutes - a.start_minutes).toNat + 1) ∧
    (analyze_location oracle a home).total_samples =
      2 * ((a.end_minutes - a.start_minutes).toNat + 1) ∧
    (analyze_location oracle a home).reachable_fraction =
      ((analyze_location oracle a home).times.length : ℚ) /
        (2 * (((a.end_minutes - a.start_minutes).toNat : ℚ) + 1)) := by
  have hlen : (intRange a.start_minutes (a.end_minutes + 1)).length =
      (a.end_minutes - a.start_minutes).toNat + 1 := by
    rw [intRange_length]
    omega
  refine ⟨?_, ?_, ?_, ?_⟩
  · exact pairlog_filter home (a.work_lat, a.work_lon) _ t
      (intRange_nodup _ _) (mem_intRange.mpr ⟨ht1, by omega⟩)
  · unfold query_log
    rw [pairlog_length, hlen]
  · rw [analyze_total_samples, hlen]
    omega
  · rw [analyze_ratio_eq, hlen]
    congr 1
    push_cast
    ring

/-- Stub analyzer configuration with a two-minute window (minutes 0 and 1). -/
def acfgTwoMin : AnalyzerConfig :=
  { work_lat := 0, work_lon := 0, start_minutes := 0, end_minutes := 1 }

/-- Witness for C7 at the concrete window [0, 1] and departure minute 1. -/
theorem sampling_two_queries_per_minute_witness :
    (query_log acfgTwoMin ((2 : ℚ), (3 : ℚ))).filter (fun e => decide (e.2.2 = 1)) =
      [(((2 : ℚ), (3 : ℚ)), ((0 : ℚ), (0 : ℚ)), 1),
       (((0 : ℚ), (0 : ℚ)), ((2 : ℚ), (3 : ℚ)), 1)] ∧
    (query_log acfgTwoMin ((2 : ℚ), (3 : ℚ))).length = 2 * 2 ∧
    (analyze_location oracleTen acfgTwoMin ((2 : ℚ), (3 : ℚ))).total_samples = 2 * 2 ∧
    (analyze_location oracleTen acfgTwoMin ((2 : ℚ), (3 : ℚ))).reachable_fraction =
      ((analyze_location oracleTen acfgTwoMin ((2 : ℚ), (3 : ℚ))).times.length : ℚ) / (2 * 2) := by
  have h := sampling_two_queries_per_minute oracleTen acfgTwoMin ((2 : ℚ), (3 : ℚ)) 1
    (by norm_num [acfgTwoMin]) (by norm_num [acfgTwoMin]) (by norm_num [acfgTwoMin])
  have he : (acfgTwoMin.end_minutes - acfgTwoMin.start_minutes).toNat + 1 = 2 := by
    norm_num [acfgTwoMin]
  rw [he] at h
  have hwork : acfgTwoMin.work_lat = (0 : ℚ) ∧ acfgTwoMin.work_lon = (0 : ℚ) := ⟨rfl, rfl⟩
  refine ⟨?_, ?_, ?_, ?_⟩
  · have := h.1
    rw [hwork.1, hwork.2] at this
    exact this
  · exact h.2.1
  · exact h.2.2.1
  · have hv : (((acfgTwoMin.end_minutes - acfgTwoMin.start_minutes).toNat : ℕ) : ℚ) = 1 := by
      norm_num [acfgTwoMin]
    have h4 := h.2.2.2
    rw [hv] at h4
    norm_num at h4 ⊢
    exact h4

lemma sorted_getD_mono {s : List ℚ} (hs : s.Sorted (· ≤ ·)) {i j : ℕ}
    (hij : i ≤ j) (hj : j < s.length) : s.getD i 0 ≤ s.getD j 0 := by
  have hi : i < s.length := lt_of_le_of_lt hij hj
  rw [s.getD_eq_getElem 0 hi, s.getD_eq_getElem 0 hj]
  rcases eq_or_lt_of_le hij with h | h
  · subst h
    exact le_refl _
  · have hg := @List.Sorted.rel_get_of_lt ℚ (· ≤ ·) s hs ⟨i, hi⟩ ⟨j, hj⟩
      (Fin.mk_lt_mk.mpr h)
    simpa using hg

lemma interpAt_mono {s : List ℚ} (hs : s.Sorted (· ≤ ·)) {pos q : ℚ}
    (h0 : 0 ≤ pos) (hpq : pos ≤ q) (hup : q ≤ (s.length : ℚ) - 1) :
    interpAt s pos ≤ interpAt s q := by
  have h0' : 0 ≤ q := le_trans h0 hpq
  have hfl : (0 : ℤ) ≤ Int.floor pos := Int.le_floor.mpr (by exact_mod_cast h0)
  have hfl' : (0 : ℤ) ≤ Int.floor q := Int.le_floor.mpr (by exact_mod_cast h0')
  have hkpos : (((Int.floor pos).toNat : ℕ) : ℚ) ≤ pos := by
    rw [show (((Int.floor pos).toNat : ℕ) : ℚ) = ((Int.floor pos : ℤ) : ℚ) by
      exact_mod_cast congrArg (fun z : ℤ => (z : ℚ)) (Int.toNat_of_nonneg hfl)]
    exact Int.floor_le pos
  have hkpos' : (((Int.floor q).toNat : ℕ) : ℚ) ≤ q := by
    rw [show (((Int.floor q).toNat : ℕ) : ℚ) = ((Int.floor q : ℤ) : ℚ) by
      exact_mod_cast congrArg (fun z : ℤ => (z : ℚ)) (Int.toNat_of_nonneg hfl')]
    exact Int.floor_le q
  have hposk : pos < (((Int.floor pos).toNat : ℕ) : ℚ) + 1 := by
    rw [show (((Int.floor pos).toNat : ℕ) : ℚ) = ((Int.floor pos : ℤ) : ℚ) by
      exact_mod_cast congrArg (fun z : ℤ => (z : ℚ)) (Int.toNat_of_nonneg hfl)]
    exact_mod_cast Int.lt_floor_add_one pos
  have hkk : (Int.floor pos).toNat ≤ (Int.floor q).toNat :=
    Int.toNat_le_toNat (Int.floor_le_floor hpq)
  have hk'lt : (Int.floor q).toNat < s.length := by
    have h1 : Int.floor q ≤ (s.length : ℤ) - 1 := by
      have h2 : q ≤ (((s.length : ℤ) - 1 : ℤ) : ℚ) := by
        push_cast
        exact hup
      have h3 := Int.floor_le_floor h2
      rwa [Int.floor_intCast] at h3
    have hn : 1 ≤ s.length := by
      by_contra hc
      have hz : s.length = 0 := by omega
      rw [hz] at hup
      norm_num at hup
      linarith
    omega
  unfold interpAt
  rcases eq_or_lt_of_le hkk with he | hlt
  · rw [← he]
    split
    · next hin =>
      have hd : s.getD (Int.floor pos).toNat 0 ≤ s.getD ((Int.floor pos).toNat + 1) 0 :=
        sorted_getD_mono hs (Nat.le_succ _) hin
      nlinarith [hd, hpq]
    · exact le_refl _
  · have hin : (Int.floor pos).toNat + 1 < s.length := by omega
    rw [if_pos hin]
    have hstep : s.getD (Int.floor pos).toNat 0 +
        (pos - (((Int.floor pos).toNat : ℕ) : ℚ)) *
          (s.getD ((Int.floor pos).toNat + 1) 0 - s.getD (Int.floor pos).toNat 0) ≤
        s.getD ((Int.floor pos).toNat + 1) 0 := by
      have hd : s.getD (Int.floor pos).toNat 0 ≤ s.getD ((Int.floor pos).toNat + 1) 0 :=
        sorted_getD_mono hs (Nat.le_succ _) hin
      nlinarith [hd, hkpos, hposk]
    have hmid : s.getD ((Int.floor pos).toNat + 1) 0 ≤ s.getD (Int.floor q).toNat 0 :=
      sorted_getD_mono hs (by omega) hk'lt
    have hlast : s.getD (Int.floor q).toNat 0 ≤
        (if (Int.floor q).toNat + 1 < s.length then
          s.getD (Int.floor q).toNat 0 +
            (q - (((Int.floor q).toNat : ℕ) : ℚ)) *
              (s.getD ((Int.floor q).toNat + 1) 0 - s.getD (Int.floor q).toNat 0)
        else s.getD (Int.floor q).toNat 0) := by
      split
      · next hin' =>
        have hd : s.getD (Int.floor q).toNat 0 ≤ s.getD ((Int.floor q).toNat + 1) 0 :=
          sorted_getD_mono hs (Nat.le_succ _) hin'
        nlinarith [hd, hkpos']
      · exact le_refl _
    exact le_trans hstep (le_trans hmid hlast)

lemma percentile_mono {xs : List ℚ} (hne : xs ≠ []) {q q' : ℚ}
    (h0 : 0 ≤ q) (hqq : q ≤ q') (h100 : q' ≤ 100) :
    percentile xs q ≤ percentile xs q' := by
  unfold percentile
  have hsort : (List.insertionSort (· ≤ ·) xs).Sorted (· ≤ ·) :=
    List.sorted_insertionSort _ _
  have hlen : (List.insertionSort (· ≤ ·) xs).length = xs.length :=
    (List.perm_insertionSort _ _).length_eq
  have hlen1 : 1 ≤ (List.insertionSort (· ≤ ·) xs).length := by
    rw [hlen]
    exact List.length_pos.mpr hne
  have hfac : (0 : ℚ) ≤ ((List.insertionSort (· ≤ ·) xs).length : ℚ) - 1 := by
    have h1 : (1 : ℚ) ≤ ((List.insertionSort (· ≤ ·) xs).length : ℚ) := by
      exact_mod_cast hlen1
    linarith
  refine interpAt_mono hsort ?_ ?_ ?_
  · exact mul_nonneg (div_nonneg h0 (by norm_num)) hfac
  · exact mul_le_mul_of_nonneg_right
      ((div_le_div_iff_of_pos_right (by norm_num)).mpr hqq) hfac
  · have h1 : q' / 100 ≤ 1 := (div_le_one (by norm_num)).mpr h100
    nlinarith [hfac]

/-- Claim C6: on every scored point (non-empty pooled sample set) the
percentile dictionary computed by `analyze_location` is monotone:
p10 ≤ p25 ≤ p50 ≤ p75 ≤ p80 ≤ p90 ≤ p95. -/
theorem percentiles_monotone (oracle : Oracle) (a : AnalyzerConfig)
    (home : GeoPoint) (p : Percentiles)
    (h : (analyze_location oracle a home).percentiles = some p) :
    p.p10 ≤ p.p25 ∧ p.p25 ≤ p.p50 ∧ p.p50 ≤ p.p75 ∧ p.p75 ≤ p.p80 ∧
      p.p80 ≤ p.p90 ∧ p.p90 ≤ p.p95 := by
  unfold analyze_location at h
  split at h
  · exact absurd h (by simp)
  · next hne =>
    have hp := Option.some.inj h
    subst hp
    refine ⟨percentile_mono hne (by norm_num) (by norm_num) (by norm_num),
      percentile_mono hne (by norm_num) (by norm_num) (by norm_num),
      percentile_mono hne (by norm_num) (by norm_num) (by norm_num),
      percentile_mono hne (by norm_num) (by norm_num) (by norm_num),
      percentile_mono hne (by norm_num) (by norm_num) (by norm_num),
      percentile_mono hne (by norm_num) (by norm_num) (by norm_num)⟩

lemma intRange_single (t : ℤ) : intRange t (t + 1) = [t] := by
  unfold intRange
  rw [show t + 1 - t = 1 by ring, show ((1 : ℤ)).toNat = 1 from rfl,
    show List.range 1 = [0] from rfl]
  simp

lemma interpAt_pair_const (c pos : ℚ) (h0 : 0 ≤ pos) (h1 : pos ≤ 1) :
    interpAt [c, c] pos = c := by
  have hfl0 : (0 : ℤ) ≤ Int.floor pos := Int.le_floor.mpr (by exact_mod_cast h0)
  have hfl1 : Int.floor pos ≤ 1 := by
    have h2 := Int.floor_le_floor h1
    rwa [Int.floor_one] at h2
  unfold interpAt
  split
  · next h =>
    have hk : (Int.floor pos).toNat = 0 := by
      simp only [List.length_cons, List.length_nil] at h
      omega
    rw [hk]
    simp
  · next h =>
    have hk : (Int.floor pos).toNat = 1 := by
      simp only [List.length_cons, List.length_nil] at h
      omega
    rw [hk]
    simp

lemma insertionSort_pair_const (c : ℚ) :
    List.insertionSort (· ≤ ·) [c, c] = [c, c] := by
  simp [List.insertionSort, List.orderedInsert]

lemma percentile_pair_const (c q : ℚ) (h0 : 0 ≤ q) (h1 : q ≤ 100) :
    percentile [c, c] q = c := by
  unfold percentile
  rw [insertionSort_pair_const]
  have hlen : (([c, c] : List ℚ).length : ℚ) - 1 = 1 := by
    norm_num
  rw [hlen, mul_one]
  exact interpAt_pair_const c (q / 100) (div_nonneg h0 (by norm_num))
    ((div_le_one (by norm_num)).mpr h1)

/-- Stub oracle answering a constant travel time `c` for every query. -/
def oracleConst (c : ℚ) : Oracle := fun _ _ _ => some c

/-- Stub analyzer configuration with a one-minute window (minute 0 only). -/
def acfgZero : AnalyzerConfig :=
  { work_lat := 0, work_lon := 0, start_minutes := 0, end_minutes := 0 }

lemma analyze_location_const (c : ℚ) (a : AnalyzerConfig) (home : GeoPoint)
    (hse : a.end_minutes = a.start_minutes) :
    analyze_location (oracleConst c) a home =
      { times := [c, c], to_work_times := [c], from_work_times := [c],
        percentiles := some { p10 := c, p25 := c, p50 := c, p75 := c,
                              p80 := c, p90 := c, p95 := c },
        statistics := some { mean := c, median := c, min := c, max := c },
        unreachable_count := 0, total_samples := 2, reachable_fraction := 1 } := by
  have hr : intRange a.start_minutes (a.end_minutes + 1) = [a.start_minutes] := by
    rw [hse]
    exact intRange_single _
  have hp10 := percentile_pair_const c 10 (by norm_num) (by norm_num)
  have hp25 := percentile_pair_const c 25 (by norm_num) (by norm_num)
  have hp50 := percentile_pair_const c 50 (by norm_num) (by norm_num)
  have hp75 := percentile_pair_const c 75 (by norm_num) (by norm_num)
  have hp80 := percentile_pair_const c 80 (by norm_num) (by norm_num)
  have hp90 := percentile_pair_const c 90 (by norm_num) (by norm_num)
  have hp95 := percentile_pair_const c 95 (by norm_num) (by norm_num)
  unfold analyze_location oracleConst
  rw [hr]
  simp only [List.filterMap_cons, List.filterMap_nil, List.cons_append,
    List.nil_append, List.countP_cons, List.countP_nil, List.length_cons,
    List.length_nil]
  rw [if_neg (List.cons_ne_nil c [c])]
  simp only [AnalysisResult.mk.injEq, hp10, hp25, hp50, hp75, hp80, hp90, hp95]
  norm_num [listMin, listMax]

lemma analyze_point_const (c : ℚ) (a : AnalyzerConfig) (ring : ℕ)
    (p : GeoPoint) (hse : a.end_minutes = a.start_minutes) :
    analyze_point (oracleConst c) a ring p =
      { point := p, score := some c, ring := ring, reachable_fraction := 1,
        statistics := some { mean := c, median := c, min := c, max := c } } := by
  unfold analyze_point get_score
  rw [analyze_location_const c a p hse]
  simp

/-- Witness for C6: a constant one-minute stub analysis has a populated,
(trivially) monotone percentile dictionary. -/
theorem percentiles_monotone_witness :
    (analyze_location (oracleConst 5) acfgZero ((2 : ℚ), (3 : ℚ))).percentiles =
      some { p10 := 5, p25 := 5, p50 := 5, p75 := 5, p80 := 5, p90 := 5, p95 := 5 } ∧
    ((5 : ℚ) ≤ 5 ∧ (5 : ℚ) ≤ 5 ∧ (5 : ℚ) ≤ 5 ∧ (5 : ℚ) ≤ 5 ∧ (5 : ℚ) ≤ 5 ∧ (5 : ℚ) ≤ 5) := by
  have heval : (analyze_location (oracleConst 5) acfgZero ((2 : ℚ), (3 : ℚ))).percentiles =
      some { p10 := 5, p25 := 5, p50 := 5, p75 := 5, p80 := 5, p90 := 5, p95 := 5 } := by
    rw [analyze_location_const 5 acfgZero ((2 : ℚ), (3 : ℚ)) rfl]
  exact ⟨heval, percentiles_monotone (oracleConst 5) acfgZero ((2 : ℚ), (3 : ℚ)) _ heval⟩

lemma mem_ringOffsets_inner {r : ℕ} {i : ℤ} {x : ℤ × ℤ}
    (hx : x ∈ (intRange (-(r : ℤ)) ((r : ℤ) + 1)).filterMap
      (fun (j : ℤ) => if i.natAbs = r ∨ j.natAbs = r then some (i, j) else none)) :
    x.1 = i ∧ (-(r : ℤ) ≤ x.2 ∧ x.2 < (r : ℤ) + 1) ∧ (i.natAbs = r ∨ x.2.natAbs = r) := by
  rcases List.mem_filterMap.mp hx with ⟨j, hj, hif⟩
  by_cases hc : i.natAbs = r ∨ j.natAbs = r
  · rw [if_pos hc] at hif
    cases Option.some.inj hif
    exact ⟨rfl, mem_intRange.mp hj, hc⟩
  · rw [if_neg hc] at hif
    cases hif

lemma ringOffsets_nodup (r : ℕ) : (ringOffsets r).Nodup := by
  unfold ringOffsets
  rw [List.nodup_flatMap]
  constructor
  · intro i _
    refine List.Nodup.filterMap ?_ (intRange_nodup _ _)
    intro a b c hc1 hc2
    rw [Option.mem_def] at hc1 hc2
    by_cases h1 : i.natAbs = r ∨ a.natAbs = r
    · rw [if_pos h1] at hc1
      by_cases h2 : i.natAbs = r ∨ b.natAbs = r
      · rw [if_pos h2] at hc2
        have e1 := Option.some.inj hc1
        have e2 := Option.some.inj hc2
        rw [← e1] at e2
        exact ((Prod.mk.injEq _ _ _ _).mp e2).2.symm
      · rw [if_neg h2] at hc2
        cases hc2
    · rw [if_neg h1] at hc1
      cases hc1
  · refine (intRange_nodup _ _).pairwise_of_forall_ne ?_
    intro i hi j hj hij
    intro x hx hx'
    have e1 := (mem_ringOffsets_inner hx).1
    have e2 := (mem_ringOffsets_inner hx').1
    exact hij (e1 ▸ e2 ▸ rfl)

lemma mem_ringOffsets {r : ℕ} {p : ℤ × ℤ} :
    p ∈ ringOffsets r ↔
      -(r : ℤ) ≤ p.1 ∧ p.1 ≤ (r : ℤ) ∧ -(r : ℤ) ≤ p.2 ∧ p.2 ≤ (r : ℤ) ∧
        (p.1.natAbs = r ∨ p.2.natAbs = r) := by
  unfold ringOffsets
  constructor
  · intro hp
    rcases List.mem_flatMap.mp hp with ⟨i, hi, hinner⟩
    obtain ⟨e1, hj, hcond⟩ := mem_ringOffsets_inner hinner
    have hi2 := mem_intRange.mp hi
    subst e1
    refine ⟨by omega, by omega, by omega, by omega, hcond⟩
  · rintro ⟨h1, h2, h3, h4, h5⟩
    refine List.mem_flatMap.mpr ⟨p.1, mem_intRange.mpr ⟨h1, by omega⟩, ?_⟩
    refine List.mem_filterMap.mpr ⟨p.2, mem_intRange.mpr ⟨h3, by omega⟩, ?_⟩
    rw [if_pos h5]

/-- The set of perimeter offsets of ring `r` as a finite set: all integer
pairs `(i, j)` with `i, j ∈ [-r, r]` and `|i| = r` or `|j| = r`
(equivalently `max |i| |j| = r`). -/
def ringFinset (r : ℕ) : Finset (ℤ × ℤ) :=
  (Finset.Icc (-(r : ℤ)) (r : ℤ) ×ˢ Finset.Icc (-(r : ℤ)) (r : ℤ)).filter
    (fun p => p.1.natAbs = r ∨ p.2.natAbs = r)

lemma ringFinset_card {r : ℕ} (hr : 1 ≤ r) : (ringFinset r).card = 8 * r := by
  have hA : (Finset.Icc (-(r : ℤ)) (r : ℤ)).card = 2 * r + 1 := by
    rw [Int.card_Icc]
    omega
  have hB : (Finset.Icc (-(r : ℤ) + 1) ((r : ℤ) - 1)).card = 2 * r - 1 := by
    rw [Int.card_Icc]
    omega
  have hneg : (Finset.Icc (-(r : ℤ)) (r : ℤ) ×ˢ Finset.Icc (-(r : ℤ)) (r : ℤ)).filter
      (fun p => ¬(p.1.natAbs = r ∨ p.2.natAbs = r)) =
      Finset.Icc (-(r : ℤ) + 1) ((r : ℤ) - 1) ×ˢ Finset.Icc (-(r : ℤ) + 1) ((r : ℤ) - 1) := by
    ext p
    simp only [Finset.mem_filter, Finset.mem_product, Finset.mem_Icc]
    omega
  have htotal : (ringFinset r).card +
      ((Finset.Icc (-(r : ℤ)) (r : ℤ) ×ˢ Finset.Icc (-(r : ℤ)) (r : ℤ)).filter
        (fun p => ¬(p.1.natAbs = r ∨ p.2.natAbs = r))).card =
      (Finset.Icc (-(r : ℤ)) (r : ℤ) ×ˢ Finset.Icc (-(r : ℤ)) (r : ℤ)).card :=
    Finset.filter_card_add_filter_neg_card_eq_card _
  rw [hneg, Finset.card_product, Finset.card_product, hA, hB] at htotal
  obtain ⟨k, rfl⟩ : ∃ k, r = k + 1 := ⟨r - 1, by omega⟩
  have hsub : 2 * (k + 1) - 1 = 2 * k + 1 := by omega
  rw [hsub] at htotal
  have hexpand : (2 * k + 1) * (2 * k + 1) + 8 * (k + 1) =
      (2 * (k + 1) + 1) * (2 * (k + 1) + 1) := by ring
  linarith [htotal, hexpand]

lemma ringOffsets_toFinset (r : ℕ) : (ringOffsets r).toFinset = ringFinset r := by
  ext p
  rw [List.mem_toFinset, mem_ringOffsets]
  unfold ringFinset
  simp only [Finset.mem_filter, Finset.mem_product, Finset.mem_Icc]
  tauto

lemma ringOffsets_length {r : ℕ} (hr : 1 ≤ r) : (ringOffsets r).length = 8 * r := by
  have h1 := List.toFinset_card_of_nodup (ringOffsets_nodup r)
  rw [ringOffsets_toFinset, ringFinset_card hr] at h1
  exact h1.symm

lemma generate_ring_points_eq_map (toGeo : ℚ × ℚ → GeoPoint) (g : GridConfig)
    {r : ℕ} (hr : r ≠ 0) :
    generate_ring_points toGeo g r = (ringOffsets r).map
      (fun ij => toGeo (g.work_x + (ij.1 : ℚ) * g.grid_spacing_feet,
                        g.work_y + (ij.2 : ℚ) * g.grid_spacing_feet)) := by
  unfold generate_ring_points ringOffsets
  rw [if_neg hr, List.map_flatMap]
  congr 1
  funext i
  rw [List.map_filterMap]
  congr 1
  funext j
  split <;> simp

/-- Claim C2: for every ring index `r ≥ 1`, positive grid spacing and
injective planar-to-geographic conversion, `generate_ring_points` returns
exactly `8r` pairwise-distinct points, namely the `toGeo`-images of the
integer offsets `(i, j)` with `i, j ∈ [-r, r]` and `|i| = r` or `|j| = r`
(i.e. `max |i| |j| = r`) scaled by the spacing and added to the center;
and ring 0 is the single center point. -/
theorem ring_points_spec (toGeo : ℚ × ℚ → GeoPoint) (g : GridConfig) (r : ℕ)
    (hinj : Function.Injective toGeo) (hs : 0 < g.grid_spacing_feet) (hr : 1 ≤ r) :
    (generate_ring_points toGeo g r).length = 8 * r ∧
    (generate_ring_points toGeo g r).Nodup ∧
    generate_ring_points toGeo g r = (ringOffsets r).map
      (fun ij => toGeo (g.work_x + (ij.1 : ℚ) * g.grid_spacing_feet,
                        g.work_y + (ij.2 : ℚ) * g.grid_spacing_feet)) ∧
    (ringOffsets r).toFinset = ringFinset r ∧
    generate_ring_points toGeo g 0 = [(g.work_lat, g.work_lon)] := by
  have hmap := generate_ring_points_eq_map toGeo g (show r ≠ 0 by omega)
  have hinj2 : Function.Injective
      (fun ij : ℤ × ℤ => toGeo (g.work_x + (ij.1 : ℚ) * g.grid_spacing_feet,
                                g.work_y + (ij.2 : ℚ) * g.grid_spacing_feet)) := by
    intro x y h
    have h2 := hinj h
    have h3 := congrArg Prod.fst h2
    have h4 := congrArg Prod.snd h2
    simp only at h3 h4
    have e1 : (x.1 : ℚ) = (y.1 : ℚ) :=
      mul_right_cancel₀ (ne_of_gt hs) (by linarith)
    have e2 : (x.2 : ℚ) = (y.2 : ℚ) :=
      mul_right_cancel₀ (ne_of_gt hs) (by linarith)
    have e1' : x.1 = y.1 := by exact_mod_cast e1
    have e2' : x.2 = y.2 := by exact_mod_cast e2
    exact Prod.ext e1' e2'
  refine ⟨?_, ?_, hmap, ringOffsets_toFinset r, ?_⟩
  · rw [hmap, List.length_map, ringOffsets_length hr]
  · rw [hmap]
    exact List.Nodup.map hinj2 (ringOffsets_nodup r)
  · unfold generate_ring_points
    rw [if_pos rfl]

/-- Planar grid configuration of the spec's concrete scenario: center
`(0, 0)` already in planar units, spacing `500`, threshold `60`. -/
def cfg500 : GridConfig :=
  { work_lat := 0, work_lon := 0, grid_spacing_feet := 500,
    max_score_threshold := 60, work_x := 0, work_y := 0 }

/-- Witness for C2 at ring 1 of the concrete planar configuration
(with the identity conversion, which is injective). -/
theorem ring_points_spec_witness :
    (generate_ring_points id cfg500 1).length = 8 * 1 ∧
    (generate_ring_points id cfg500 1).Nodup ∧
    generate_ring_points id cfg500 1 = (ringOffsets 1).map
      (fun ij => id (cfg500.work_x + (ij.1 : ℚ) * cfg500.grid_spacing_feet,
                     cfg500.work_y + (ij.2 : ℚ) * cfg500.grid_spacing_feet)) ∧
    (ringOffsets 1).toFinset = ringFinset 1 ∧
    generate_ring_points id cfg500 0 = [(cfg500.work_lat, cfg500.work_lon)] :=
  ring_points_spec id cfg500 1 (fun x y h => h) (by norm_num [cfg500]) (le_refl 1)

/-- Claim C4: a ring in which no evaluated point has a score (all
`score = None`) never triggers the threshold stopping condition — the
loop records the ring's results and proceeds to the next ring (bounded
only by the max-ring limit, which is the `ring < max_rings` hypothesis
here; at `ring = max_rings` the max-rings stop applies instead). -/
theorem all_unscored_ring_continues (ringPts : ℕ → List GeoPoint)
    (evalPt : ℕ → GeoPoint → PointResult) (threshold : ℚ)
    (max_rings ring fuel : ℕ) (acc : HeatMapResult)
    (hnone : ∀ p ∈ ringPts ring, (evalPt ring p).score = none)
    (hlt : ring < max_rings) :
    heatLoop ringPts evalPt threshold max_rings ring (fuel + 1) acc =
      heatLoop ringPts evalPt threshold max_rings (ring + 1) fuel
        { acc with points := acc.points ++ (ringPts ring).map (evalPt ring),
                   rings_analyzed := ring + 1,
                   total_points := (acc.points ++ (ringPts ring).map (evalPt ring)).length } := by
  have hscores : ((ringPts ring).map (evalPt ring)).filterMap PointResult.score = [] := by
    rw [List.filterMap_map]
    exact List.filterMap_eq_nil_iff.mpr (fun p hp => hnone p hp)
  simp only [heatLoop, hscores]
  simp [Nat.ne_of_lt hlt]

/-- Stub ring generator for the C4 witness: every ring is one point. -/
def ringPtsOne : ℕ → List GeoPoint := fun _ => [((0 : ℚ), (0 : ℚ))]

/-- Stub evaluator for the C4 witness: every point is unscored. -/
def evalPtNone : ℕ → GeoPoint → PointResult := fun r p =>
  { point := p, score := none, ring := r, reachable_fraction := 0,
    statistics := none }

/-- Empty initial accumulator (the `results` dict before the loop) for
the concrete planar configuration `cfg500`. -/
def accInit : HeatMapResult :=
  { work_lat := 0, work_lon := 0, grid_spacing_feet := 500,
    max_score_threshold := 60, points := [], rings_analyzed := 0,
    total_points := 0, stopped_reason := none }

/-- Witness for C4: at ring 0 of a two-ring run whose single point is
unscored, one loop step just records the point and recurses to ring 1. -/
theorem all_unscored_ring_continues_witness :
    heatLoop ringPtsOne evalPtNone 60 1 0 (1 + 1) accInit =
      heatLoop ringPtsOne evalPtNone 60 1 (0 + 1) 1
        { accInit with points := accInit.points ++ (ringPtsOne 0).map (evalPtNone 0),
                       rings_analyzed := 0 + 1,
                       total_points := (accInit.points ++ (ringPtsOne 0).map (evalPtNone 0)).length } :=
  all_unscored_ring_continues ringPtsOne evalPtNone 60 1 0 1 accInit
    (fun p _ => rfl) (by omega)

lemma heatLoop_run (ringPts : ℕ → List GeoPoint)
    (evalPt : ℕ → GeoPoint → PointResult) (threshold : ℚ) (max_rings : ℕ) :
    ∀ fuel ring acc, ring + fuel = max_rings + 1 → 1 ≤ fuel →
      ∃ m, ring ≤ m ∧ m ≤ max_rings ∧
        (heatLoop ringPts evalPt threshold max_rings ring fuel acc).rings_analyzed = m + 1 ∧
        (heatLoop ringPts evalPt threshold max_rings ring fuel acc).stopped_reason.isSome ∧
        (heatLoop ringPts evalPt threshold max_rings ring fuel acc).points =
          acc.points ++ (List.range' ring (m + 1 - ring)).flatMap
            (fun k => (ringPts k).map (evalPt k)) := by
  intro fuel
  induction fuel with
  | zero =>
    intro ring acc h1 h2
    exact absurd h2 (by omega)
  | succ f ih =>
    intro ring acc hsum _
    simp only [heatLoop]
    by_cases hstop : ((ringPts ring).map (evalPt ring)).filterMap PointResult.score ≠ [] ∧
        threshold < listMin (((ringPts ring).map (evalPt ring)).filterMap PointResult.score)
    · rw [if_pos hstop]
      refine ⟨ring, le_refl _, by omega, rfl, rfl, ?_⟩
      have h1 : ring + 1 - ring = 1 := by omega
      rw [h1]
      simp [List.range']
    · rw [if_neg hstop]
      by_cases hmax : ring = max_rings
      · rw [if_pos hmax]
        refine ⟨ring, le_refl _, by omega, rfl, rfl, ?_⟩
        have h1 : ring + 1 - ring = 1 := by omega
        rw [h1]
        simp [List.range']
      · rw [if_neg hmax]
        have hf : 1 ≤ f := by omega
        obtain ⟨m, hm1, hm2, hm3, hm4, hm5⟩ := ih (ring + 1)
          { acc with points := acc.points ++ (ringPts ring).map (evalPt ring),
                     rings_analyzed := ring + 1,
                     total_points := (acc.points ++ (ringPts ring).map (evalPt ring)).length }
          (by omega) hf
        refine ⟨m, by omega, hm2, hm3, hm4, ?_⟩
        rw [hm5]
        have hdec : m + 1 - ring = (m + 1 - (ring + 1)) + 1 := by omega
        rw [hdec]
        simp only [List.range']
        simp [List.flatMap_cons, List.append_assoc]

/-- Claim C5: for every configuration (any oracle, any max-ring bound),
generation stops no later than ring `max_rings`
(`rings_analyzed ≤ max_rings + 1`), always records a stop reason, and the
returned artifact's `points` are exactly the evaluated rings' results in
order — in particular the triggering ring's points are included. -/
theorem generation_stops_by_max_rings (toGeo : ℚ × ℚ → GeoPoint) (g : GridConfig)
    (oracle : Oracle) (a : AnalyzerConfig) (max_rings : ℕ) :
    (generate_heatmap toGeo g oracle a max_rings).rings_analyzed ≤ max_rings + 1 ∧
    (generate_heatmap toGeo g oracle a max_rings).stopped_reason.isSome ∧
    (generate_heatmap toGeo g oracle a max_rings).points =
      (List.range (generate_heatmap toGeo g oracle a max_rings).rings_analyzed).flatMap
        (fun k => (generate_ring_points toGeo g k).map (analyze_point oracle a k)) := by
  unfold generate_heatmap
  obtain ⟨m, hm1, hm2, hm3, hm4, hm5⟩ := heatLoop_run (generate_ring_points toGeo g)
    (analyze_point oracle a) g.max_score_threshold max_rings (max_rings + 1) 0
    { work_lat := g.work_lat, work_lon := g.work_lon,
      grid_spacing_feet := g.grid_spacing_feet,
      max_score_threshold := g.max_score_threshold,
      points := [], rings_analyzed := 0, total_points := 0,
      stopped_reason := none }
    (by omega) (by omega)
  refine ⟨by rw [hm3]; omega, hm4, ?_⟩
  rw [hm3, hm5, List.range_eq_range']
  simp

lemma ring_zero_points (toGeo : ℚ × ℚ → GeoPoint) (g : GridConfig) :
    generate_ring_points toGeo g 0 = [(g.work_lat, g.work_lon)] := by
  unfold generate_ring_points
  rw [if_pos rfl]

lemma stub_scenario_eval :
    generate_heatmap id cfg500 (oracleConst 100) acfgZero 2 =
      { work_lat := 0, work_lon := 0, grid_spacing_feet := 500,
        max_score_threshold := 60,
        points := [{ point := ((0 : ℚ), (0 : ℚ)), score := some 100, ring := 0,
                     reachable_fraction := 1,
                     statistics := some { mean := 100, median := 100,
                                          min := 100, max := 100 } }],
        rings_analyzed := 1, total_points := 1,
        stopped_reason := some (StopReason.ring_exceeds_threshold 0) } := by
  have hpt := analyze_point_const 100 acfgZero 0 ((0 : ℚ), (0 : ℚ)) rfl
  have hring0 : generate_ring_points id cfg500 0 = [((0 : ℚ), (0 : ℚ))] :=
    ring_zero_points id cfg500
  unfold generate_heatmap
  simp only [heatLoop, hring0, List.map_cons, List.map_nil, hpt]
  norm_num [listMin, cfg500, List.filterMap_cons]

/-- Counterexample to C1 as stated: with the stub oracle scoring every
point 100 and threshold 60 (`maxRings = 2`), generation does NOT stop
after ring 1 with `rings_analyzed = 2` — it stops already after ring 0,
whose single point exceeds the threshold, with `rings_analyzed = 1`:
ring 0 alone CAN stop generation before ring 1 is attempted. -/
theorem stub_scenario_counterexample :
    (generate_heatmap id cfg500 (oracleConst 100) acfgZero 2).rings_analyzed = 1 ∧
    (generate_heatmap id cfg500 (oracleConst 100) acfgZero 2).rings_analyzed ≠ 2 ∧
    (generate_heatmap id cfg500 (oracleConst 100) acfgZero 2).stopped_reason =
      some (StopReason.ring_exceeds_threshold 0) ∧
    (generate_heatmap id cfg500 (oracleConst 100) acfgZero 2).stopped_reason ≠
      some (StopReason.ring_exceeds_threshold 1) := by
  rw [stub_scenario_eval]
  refine ⟨rfl, by norm_num, rfl, by decide⟩

/-- Claim C1 amended: in the stub scenario (every point scored 100,
threshold 60, `maxRings = 2`) generation stops after ring 0 — the first
ring whose scored points all exceed the threshold, ring 0 included — with
`stopped_reason = 'All points in ring 0 exceed threshold'`,
`rings_analyzed = 1`, and only ring 0's single point in the artifact. -/
theorem stub_scenario_amended :
    (generate_heatmap id cfg500 (oracleConst 100) acfgZero 2).rings_analyzed = 1 ∧
    (generate_heatmap id cfg500 (oracleConst 100) acfgZero 2).stopped_reason =
      some (StopReason.ring_exceeds_threshold 0) ∧
    (generate_heatmap id cfg500 (oracleConst 100) acfgZero 2).points =
      [{ point := ((0 : ℚ), (0 : ℚ)), score := some 100, ring := 0,
         reachable_fraction := 1,
         statistics := some { mean := 100, median := 100, min := 100, max := 100 } }] ∧
    (generate_heatmap id cfg500 (oracleConst 100) acfgZero 2).total_points = 1 := by
  rw [stub_scenario_eval]
  exact ⟨rfl, rfl, rfl, rfl⟩

/-- Counterexample to C8 as stated: an invalid configuration (here grid
spacing `-1 ≤ 0`) is NOT rejected at startup — the constructor stores it
unchanged, and heat-map generation runs to completion on it, evaluating
ring points and returning an artifact with a stop reason. -/
theorem startup_validation_counterexample :
    grid_init id 0 0 (-1) 60 =
      { work_lat := 0, work_lon := 0, grid_spacing_feet := -1,
        max_score_threshold := 60, work_x := 0, work_y := 0 } ∧
    (generate_heatmap id (grid_init id 0 0 (-1) 60)
        (oracleConst 100) acfgZero 0).stopped_reason.isSome ∧
    (generate_heatmap id (grid_init id 0 0 (-1) 60)
        (oracleConst 100) acfgZero 0).rings_analyzed = 1 := by
  refine ⟨rfl, ?_, ?_⟩ <;>
  · unfold generate_heatmap
    obtain ⟨m, hm1, hm2, hm3, hm4, hm5⟩ := heatLoop_run
      (generate_ring_points id (grid_init id 0 0 (-1) 60))
      (analyze_point (oracleConst 100) acfgZero)
      (grid_init id 0 0 (-1) 60).max_score_threshold 0 (0 + 1) 0
      { work_lat := (grid_init id 0 0 (-1) 60).work_lat,
        work_lon := (grid_init id 0 0 (-1) 60).work_lon,
        grid_spacing_feet := (grid_init id 0 0 (-1) 60).grid_spacing_feet,
        max_score_threshold := (grid_init id 0 0 (-1) 60).max_score_threshold,
        points := [], rings_analyzed := 0, total_points := 0,
        stopped_reason := none }
      (by omega) (by omega)
    first
    | exact hm4
    | · rw [hm3]
        omega

/-- Claim C8 amended: the constructors perform NO configuration
validation — any grid spacing (including values ≤ 0), threshold, window
and ring bound are accepted and stored verbatim, and generation
nevertheless runs and terminates with an artifact carrying a stop
reason. -/
theorem startup_no_validation (toPlane : GeoPoint → ℚ × ℚ)
    (toGeo : ℚ × ℚ → GeoPoint) (work_lat work_lon s thr : ℚ)
    (oracle : Oracle) (a : AnalyzerConfig) (max_rings : ℕ) (_hs : s ≤ 0) :
    (grid_init toPlane work_lat work_lon s thr).grid_spacing_feet = s ∧
    (grid_init toPlane work_lat work_lon s thr).max_score_threshold = thr ∧
    (generate_heatmap toGeo (grid_init toPlane work_lat work_lon s thr)
        oracle a max_rings).stopped_reason.isSome := by
  refine ⟨rfl, rfl, ?_⟩
  unfold generate_heatmap
  obtain ⟨m, hm1, hm2, hm3, hm4, hm5⟩ := heatLoop_run
    (generate_ring_points toGeo (grid_init toPlane work_lat work_lon s thr))
    (analyze_point oracle a)
    (grid_init toPlane work_lat work_lon s thr).max_score_threshold
    max_rings (max_rings + 1) 0
    { work_lat := (grid_init toPlane work_lat work_lon s thr).work_lat,
      work_lon := (grid_init toPlane work_lat work_lon s thr).work_lon,
      grid_spacing_feet := (grid_init toPlane work_lat work_lon s thr).grid_spacing_feet,
      max_score_threshold := (grid_init toPlane work_lat work_lon s thr).max_score_threshold,
      points := [], rings_analyzed := 0, total_points := 0,
      stopped_reason := none }
    (by omega) (by omega)
  exact hm4

/-- Witness for C8 (amended) at the concrete invalid spacing `-1`. -/
theorem startup_no_validation_witness :
    (grid_init id 0 0 (-1) 60).grid_spacing_feet = -1 ∧
    (grid_init id 0 0 (-1) 60).max_score_threshold = 60 ∧
    (generate_heatmap id (grid_init id 0 0 (-1) 60)
        (oracleConst 100) acfgZero 1).stopped_reason.isSome :=
  startup_no_validation id id 0 0 (-1) 60 (oracleConst 100) acfgZero 1 (by norm_num)

/-- Raising stub oracle: every query touching the point `(0, 0)` as origin
raises; every other query answers a 10-minute travel time. -/
def oracleErr : OracleE := fun o _ _ =>
  if o = ((0 : ℚ), (0 : ℚ)) then Except.error "oracle exception"
  else Except.ok (some 10)

/-- Counterexample to C9 as stated: a single point-evaluation job whose
oracle raises is NOT recorded as `score = None` — there is no exception
handler on the evaluation path, so the exception aborts the whole run and
no artifact is produced at all. -/
theorem point_failure_counterexample :
    generate_heatmapE id cfg500 oracleErr acfgZero 1 =
      Except.error "oracle exception" := by
  have hring0 : generate_ring_points id cfg500 0 = [((0 : ℚ), (0 : ℚ))] :=
    ring_zero_points id cfg500
  have hr : intRange acfgZero.start_minutes (acfgZero.end_minutes + 1) = [0] :=
    intRange_single 0
  have hsamp : sample_loop oracleErr (acfgZero.work_lat, acfgZero.work_lon)
      ((0 : ℚ), (0 : ℚ)) [0] = Except.error "oracle exception" := by
    simp [sample_loop, oracleErr]
  have hloc : analyze_locationE oracleErr acfgZero ((0 : ℚ), (0 : ℚ)) =
      Except.error "oracle exception" := by
    unfold analyze_locationE
    rw [hr, hsamp]
  have hpt : analyze_pointE oracleErr acfgZero 0 ((0 : ℚ), (0 : ℚ)) =
      Except.error "oracle exception" := by
    unfold analyze_pointE
    rw [hloc]
  have hmap : mapE (analyze_pointE oracleErr acfgZero 0)
      (generate_ring_points id cfg500 0) = Except.error "oracle exception" := by
    rw [hring0]
    simp only [mapE]
    rw [hpt]
  unfold generate_heatmapE
  simp only [heatLoopE, hmap]

/-- Claim C9 amended: a point ALL of whose samples fail in the
data-level sense (the oracle returns "no route" for every query touching
it) is recorded with `score = None` and does not abort anything —
generation still terminates with an artifact; but a RAISED oracle
exception propagates (no handler exists) and aborts the run, per the
counterexample. -/
theorem point_failure_amended (oracle : Oracle) (a : AnalyzerConfig)
    (toGeo : ℚ × ℚ → GeoPoint) (g : GridConfig) (max_rings ring : ℕ)
    (p : GeoPoint)
    (h1 : ∀ d t, oracle p d t = none) (h2 : ∀ o t, oracle o p t = none) :
    (analyze_point oracle a ring p).score = none ∧
    (generate_heatmap toGeo g oracle a max_rings).stopped_reason.isSome := by
  constructor
  · have ht : (analyze_location oracle a p).times = [] := by
      unfold analyze_location
      have e1 : (intRange a.start_minutes (a.end_minutes + 1)).filterMap
          (fun t => oracle p (a.work_lat, a.work_lon) t) = [] :=
        List.filterMap_eq_nil_iff.mpr (fun t _ => h1 _ _)
      have e2 : (intRange a.start_minutes (a.end_minutes + 1)).filterMap
          (fun t => oracle (a.work_lat, a.work_lon) p t) = [] :=
        List.filterMap_eq_nil_iff.mpr (fun t _ => h2 _ _)
      rw [e1, e2]
      simp
    simp [analyze_point, get_score, ht]
  · unfold generate_heatmap
    obtain ⟨m, hm1, hm2, hm3, hm4, hm5⟩ := heatLoop_run
      (generate_ring_points toGeo g) (analyze_point oracle a)
      g.max_score_threshold max_rings (max_rings + 1) 0
      { work_lat := g.work_lat, work_lon := g.work_lon,
        grid_spacing_feet := g.grid_spacing_feet,
        max_score_threshold := g.max_score_threshold,
        points := [], rings_analyzed := 0, total_points := 0,
        stopped_reason := none }
      (by omega) (by omega)
    exact hm4

/-- Stub oracle: every query is unreachable. -/
def oracleNone : Oracle := fun _ _ _ => none

/-- Witness for C9 (amended) at a concrete all-unreachable point. -/
theorem point_failure_amended_witness :
    (analyze_point oracleNone acfgZero 0 ((0 : ℚ), (0 : ℚ))).score = none ∧
    (generate_heatmap id cfg500 oracleNone acfgZero 1).stopped_reason.isSome :=
  point_failure_amended oracleNone acfgZero id cfg500 1 0 ((0 : ℚ), (0 : ℚ))
    (fun _ _ => rfl) (fun _ _ => rfl)
